import Mathlib

/-!
# Memory-mapping registry of the trinity fuzzer (`mm/maps.c`)

A shallow embedding of `mm/maps.c` and the properties of it that were checked.

Conventions of the embedding.

* Machine integers are natural numbers holding the bit pattern of the C value.
  Bitwise complement at a width `w` is `2 ^ w - 1 - x`.
* A `struct map *` argument that may be `NULL` is an `Option map`.  A dereference
  of `NULL`, and a division by zero, end the run with a `Fault`.
* The records of the object pool are kept by value, one list per
  `(scope, type)` partition, in list order.
* Strings live in a heap of `malloc` cells; a `char *` is the address of a cell,
  address `0` being `NULL`.  `strdup` takes a fresh cell, `free` empties one.
* Calls that leave the file (`mmap`, `free`, the random read and write
  primitives) are appended to a log of calls, in program order.
* Values drawn from the random source and replies of the kernel are inputs.
-/

namespace Trinity

/-! ## Constants of `<sys/mman.h>` and of the harness headers -/

/-- Protection bit `PROT_NONE` of `<sys/mman.h>`. -/
def PROT_NONE : Nat := 0

/-- Protection bit `PROT_READ` of `<sys/mman.h>`. -/
def PROT_READ : Nat := 1

/-- Protection bit `PROT_WRITE` of `<sys/mman.h>`. -/
def PROT_WRITE : Nat := 2

/-- Protection bit `PROT_EXEC` of `<sys/mman.h>`. -/
def PROT_EXEC : Nat := 4

/-- The value `MAP_FAILED`, which is `(void *) -1` on a 64-bit target. -/
def MAP_FAILED : Nat := 2 ^ 64 - 1

/-- Modelled from the spec: the scope flag `OBJ_LOCAL` of `objects.h`, which is not part
of the sources at hand (the scope private to one worker). -/
def OBJ_LOCAL : Bool := false

/-- Modelled from the spec: the scope flag `OBJ_GLOBAL` of `objects.h`, which is not part
of the sources at hand (the scope shared by all workers). -/
def OBJ_GLOBAL : Bool := true

/-- Bitwise complement `~x` of a 32-bit `int`, as a bit pattern. -/
def not32 (x : Nat) : Nat := 2 ^ 32 - 1 - x % 2 ^ 32

/-- Modelled from the spec: the provenance tags `enum maptype` of `maps.h`, which is
not part of the sources at hand.  `maps.c` uses `INITIAL_ANON` and `MMAPED_FILE`;
the specification lists `MMAPED_ANON` as a further tag. -/
inductive maptype where
  | INITIAL_ANON
  | MMAPED_FILE
  | MMAPED_ANON
  deriving DecidableEq, Repr

/-- Modelled from the spec: the object classes `enum objecttype` of `objects.h`, which is
not part of the sources at hand.  `maps.c` names `OBJ_MMAP_ANON` and
`OBJ_MMAP_FILE`; every other class of the pool is `OBJ_OTHER n`. -/
inductive objecttype where
  | OBJ_MMAP_ANON
  | OBJ_MMAP_FILE
  | OBJ_OTHER (n : Nat)
  deriving DecidableEq, Repr

/-- The record `struct map`: base address, name (address of a string cell), byte
length, protection mask and provenance tag. -/
structure map where
  ptr : Nat
  name : Nat
  size : Nat
  prot : Nat
  type : maptype
  deriving DecidableEq, Repr

/-- The record `struct object`, of which `maps.c` touches the `map` member only. -/
structure object where
  map : map
  deriving DecidableEq, Repr

/-- Ways a run can end abnormally. -/
inductive Fault where
  | segv
  | sigfpe
  deriving DecidableEq, Repr

/-- Destructor callbacks that `maps.c` installs in an `objhead`. -/
inductive destructor where
  | map_destructor
  deriving DecidableEq, Repr

/-- The arguments of one call `mmap(NULL, len, prot, flags, fd, offset)`. -/
structure MmapArgs where
  len : Nat
  prot : Nat
  flags : Nat
  fd : Int
  offset : Nat
  deriving DecidableEq, Repr

/-- Calls that leave `maps.c`, as they are logged. -/
inductive Call where
  | random_map_writefn (m : map)
  | random_map_readfn (m : map)
  | mmap (a : MmapArgs)
  | munmap (ptr size : Nat)
  | free_name (p : Nat)
  | free_object (o : object)
  deriving DecidableEq, Repr

/-- The head `struct objhead` of one partition of the pool: its records in list
order and its destructor callback. -/
structure objhead where
  list : List object
  destroy : Option destructor
  deriving DecidableEq, Repr

/-- The part of `struct syscallrecord` that `maps.c` touches. -/
structure syscallrecord where
  a1 : Nat
  a2 : Nat
  deriving DecidableEq, Repr

/-- The part of `struct childdata` that `maps.c` touches. -/
structure childdata where
  syscall : syscallrecord
  deriving DecidableEq, Repr

/-- The platform constants of `arch.h`. -/
structure Arch where
  page_size : Nat
  PAGE_MASK : Nat
  deriving DecidableEq, Repr

/-- The state `maps.c` works on: the heap of strings, the object pool by scope
and class, the worker context `this_child()`, the map records by address (what
a `struct map *` held in a syscall argument designates), and the log of calls. -/
structure State where
  strings : List (Option String)
  objects : Bool → objecttype → objhead
  child : Option childdata
  maps : Nat → Option map
  calls : List Call

/-- What the outside world feeds one run of `mmap_fd`, by attempt number: the
value of `rnd()`, the value of `get_rand_mmap_flags()`, and the reply of the
kernel to the `mmap` call. -/
structure MmapEnv where
  rnd : Nat → Nat
  get_rand_mmap_flags : Nat → Nat
  mmap : Nat → MmapArgs → Nat

/-- The random values one call of `dirty_random_mapping` consumes: the class
coin and the pick of `get_map`, and the read/write coin of `dirty_mapping`. -/
structure Draw where
  coin : Bool
  r : Nat
  rw : Bool
  deriving DecidableEq, Repr

/-! ## Collaborators outside `maps.c` -/

/-- The content of the string cell at address `p`, if `p` is a live cell. -/
def string_at (h : List (Option String)) (p : Nat) : Option String :=
  match p with
  | 0 => none
  | q + 1 => h[q]?.join

/-- The libc call `strdup` on a string content: a fresh cell holding a copy,
the address of which is returned.  Allocation is taken to succeed. -/
def strdup (h : List (Option String)) (s : String) : List (Option String) × Nat :=
  (h ++ [some s], h.length + 1)

/-- The libc call `free` on the address of a string cell. -/
def free_string (h : List (Option String)) (p : Nat) : List (Option String) :=
  match p with
  | 0 => h
  | q + 1 => h.set q none

/-- Modelled from the spec: `alloc_object` of the object pool, which is not part of the
sources at hand ("`allocate_object() -> ObjectHandle`").  The record comes
zeroed; `maps.c` overwrites every member of `map` before it registers it. -/
def alloc_object : object :=
  ⟨⟨0, 0, 0, 0, maptype.INITIAL_ANON⟩⟩

/-- Modelled from the spec: `get_objhead` of the object pool, which is not part of the
sources at hand ("`get_type_head(scope, type) -> TypeHead`"): the head of the
partition of a scope and a class. -/
def get_objhead (s : State) (global : Bool) (type : objecttype) : objhead :=
  s.objects global type

/-- Replace the head of one partition of the pool. -/
def set_objhead (s : State) (global : Bool) (type : objecttype) (h : objhead) : State :=
  { s with objects := fun g t => if g = global ∧ t = type then h else s.objects g t }

/-- Modelled from the spec: `add_object` of the object pool, which is not part of the
sources at hand ("`register_object(handle, scope, type)`", with iteration in
insertion order): the record joins the end of the partition of its scope and
class. -/
def add_object (obj : object) (global : Bool) (type : objecttype) (s : State) : State :=
  let head := get_objhead s global type
  set_objhead s global type { head with list := head.list ++ [obj] }

/-- Modelled from the spec: `get_random_object` of the object pool, which is not part of
the sources at hand ("`pick_random_object(type, scope) -> Option<ObjectHandle>`",
a random member of the partition, or none when it is empty).  `r` is the value
drawn from the random source. -/
def get_random_object (s : State) (type : objecttype) (global : Bool) (r : Nat) :
    Option object :=
  let head := get_objhead s global type
  if head.list.length = 0 then none else head.list[r % head.list.length]?

/-- Append a call to the log. -/
def State.log (s : State) (c : Call) : State :=
  { s with calls := s.calls ++ [c] }

/-! ## `maps.c` -/

/-- The function `get_map`.  `coin` is the value of `RAND_BOOL()`, `r` the value
drawn inside `get_random_object`. -/
def get_map (s : State) (coin : Bool) (r : Nat) : Option map :=
  let global := if s.child = none then OBJ_GLOBAL else OBJ_LOCAL
  let type := if coin then objecttype.OBJ_MMAP_ANON else objecttype.OBJ_MMAP_FILE
  match get_random_object s type global r with
  | none => none
  | some obj => some obj.map

/-- The function `map_destructor`. -/
def map_destructor (obj : object) (s : State) : State :=
  let map := obj.map
  let s := s.log (Call.munmap map.ptr map.size)
  let s := { s with strings := free_string s.strings map.name }
  s.log (Call.free_name map.name)

/-- The function `dirty_mapping`.  `rw` is the value of `RAND_BOOL()`.  Both
branches read `map->prot`, which faults on `NULL`. -/
def dirty_mapping (map : Option map) (rw : Bool) (s : State) : Except Fault State :=
  match map with
  | none => Except.error Fault.segv
  | some m =>
    if rw = true then
      if m.prot &&& not32 PROT_WRITE ≠ 0 then
        Except.ok s
      else
        Except.ok (s.log (Call.random_map_writefn m))
    else
      if m.prot &&& not32 PROT_READ ≠ 0 then
        Except.ok s
      else
        Except.ok (s.log (Call.random_map_readfn m))

/-- The function `dirty_random_mapping`.  `coin` and `r` are consumed by
`get_map`, `rw` by `dirty_mapping`. -/
def dirty_random_mapping (coin : Bool) (r : Nat) (rw : Bool) (s : State) :
    Except Fault State :=
  let map := get_map s coin r
  dirty_mapping map rw s

/-- The loop body of `init_child_mappings`, run over the global list in list
order.  `strdup(m->name)` reads the string at `m->name`, which faults when that
is not a live string. -/
def init_child_mappings_loop : List object → State → Except Fault State
  | [], s => Except.ok s
  | globalobj :: rest, s =>
    let m := globalobj.map
    let newobj := alloc_object
    let newobj := { newobj with map := { newobj.map with ptr := m.ptr } }
    match string_at s.strings m.name with
    | none => Except.error Fault.segv
    | some str =>
      let dup := strdup s.strings str
      let s := { s with strings := dup.1 }
      let newobj := { newobj with map := { newobj.map with name := dup.2 } }
      let newobj := { newobj with map := { newobj.map with size := m.size } }
      let newobj := { newobj with map := { newobj.map with prot := m.prot } }
      let newobj := { newobj with map := { newobj.map with type := maptype.INITIAL_ANON } }
      init_child_mappings_loop rest (add_object newobj OBJ_LOCAL objecttype.OBJ_MMAP_ANON s)

/-- The function `init_child_mappings`. -/
def init_child_mappings (s : State) : Except Fault State :=
  let head := get_objhead s OBJ_LOCAL objecttype.OBJ_MMAP_ANON
  let s1 := set_objhead s OBJ_LOCAL objecttype.OBJ_MMAP_ANON
    { head with destroy := some destructor.map_destructor }
  let globallist := (s1.objects OBJ_GLOBAL objecttype.OBJ_MMAP_ANON).list
  init_child_mappings_loop globallist s1

/-- The function `common_set_mmap_ptr_len`.  `rnd` is the value of `rnd()`.  The
result is the new state and the returned pointer, `0` being `NULL`. -/
def common_set_mmap_ptr_len (a : Arch) (rnd : Nat) (s : State) :
    Except Fault (State × Nat) :=
  match s.child with
  | none => Except.error Fault.segv
  | some child =>
    let rec_ := child.syscall
    let map := rec_.a1
    if map = 0 then
      let rec_ := { rec_ with a1 := 0 }
      let rec_ := { rec_ with a2 := 0 }
      Except.ok ({ s with child := some { child with syscall := rec_ } }, 0)
    else
      match s.maps map with
      | none => Except.error Fault.segv
      | some m =>
        let rec_ := { rec_ with a1 := m.ptr }
        if m.size = 0 then
          Except.error Fault.sigfpe
        else
          let rec_ := { rec_ with a2 := rnd % 2 ^ 64 % m.size }
          let rec_ := { rec_ with a2 := rec_.a2 &&& a.PAGE_MASK }
          Except.ok ({ s with child := some { child with syscall := rec_ } }, map)

/-- The loop of `mmap_fd` from the label `retry_mmap` on.  `retries` is the
counter of the source, which is also the number of the attempt; the first
argument bounds the number of passes, and `none` means it ran out. -/
def retry_mmap (a : Arch) (e : MmapEnv) (fd : Int) (len prot : Nat) (global : Bool)
    (type : objecttype) : Nat → Nat → object → State → Option State
  | 0, _, _, _ => none
  | fuel + 1, retries, obj, s =>
    let offset :=
      if len = 0 then 0 else (e.rnd retries % 2 ^ 64 % obj.map.size) &&& a.PAGE_MASK
    let obj :=
      if len = 0 then { obj with map := { obj.map with size := a.page_size } } else obj
    let obj := { obj with map := { obj.map with prot := prot } }
    let obj := { obj with map := { obj.map with type := maptype.MMAPED_FILE } }
    let args : MmapArgs := ⟨len, prot, e.get_rand_mmap_flags retries, fd, offset⟩
    let obj := { obj with map := { obj.map with ptr := e.mmap retries args } }
    let s := s.log (Call.mmap args)
    if obj.map.ptr = MAP_FAILED then
      if retries + 1 = 100 then
        let s := { s with strings := free_string s.strings obj.map.name }
        let s := s.log (Call.free_name obj.map.name)
        some (s.log (Call.free_object obj))
      else
        retry_mmap a e fd len prot global type fuel (retries + 1) obj s
    else
      some (add_object obj global type s)

/-- The function `mmap_fd`.  The loop is entered with `retries = 0` and room for
100 passes. -/
def mmap_fd (a : Arch) (e : MmapEnv) (fd : Int) (name : String) (len prot : Nat)
    (global : Bool) (type : objecttype) (s : State) : Option State :=
  let obj := alloc_object
  let dup := strdup s.strings name
  let obj := { obj with map := { obj.map with name := dup.2 } }
  let obj := { obj with map := { obj.map with size := len } }
  retry_mmap a e fd len prot global type 100 0 obj { s with strings := dup.1 }

/-- A run of successive calls of `dirty_random_mapping`, one per draw; a fault
ends the run. -/
def dirty_random_mapping_seq : List Draw → State → Except Fault State
  | [], s => Except.ok s
  | d :: ds, s =>
    match dirty_random_mapping d.coin d.r d.rw s with
    | Except.error f => Except.error f
    | Except.ok s1 => dirty_random_mapping_seq ds s1

/-! ## Observations on the log of calls -/

/-- The invocations of the random-write primitive in a log. -/
def write_calls (l : List Call) : List map :=
  l.filterMap fun c => match c with
    | Call.random_map_writefn m => some m
    | _ => none

/-- The invocations of the random-read primitive in a log. -/
def read_calls (l : List Call) : List map :=
  l.filterMap fun c => match c with
    | Call.random_map_readfn m => some m
    | _ => none

/-- The arguments of the `mmap` calls in a log, in order. -/
def mmap_calls (l : List Call) : List MmapArgs :=
  l.filterMap fun c => match c with
    | Call.mmap a => some a
    | _ => none

/-! ## Closed forms used to state what the loops do -/

/-- The local records that correspond to a list of global records when the
names are duplicated into the string cells that follow address `base`. -/
def inherited_copies (base : Nat) : List object → List object
  | [] => []
  | g :: rest =>
    ⟨⟨g.map.ptr, base + 1, g.map.size, g.map.prot, maptype.INITIAL_ANON⟩⟩ ::
      inherited_copies (base + 1) rest

/-- The arguments of the `mmap` call of attempt `i` of
`mmap_fd(fd, name, len, prot, global, type)`. -/
def attempt_args (a : Arch) (e : MmapEnv) (fd : Int) (len prot : Nat) (i : Nat) : MmapArgs :=
  ⟨len, prot, e.get_rand_mmap_flags i, fd,
    if len = 0 then 0 else (e.rnd i % 2 ^ 64 % len) &&& a.PAGE_MASK⟩

/-- The log entries of `n` successive attempts of `mmap_fd`, from attempt
`first` on. -/
def attempt_log (a : Arch) (e : MmapEnv) (fd : Int) (len prot : Nat) (first n : Nat) :
    List Call :=
  (List.range' first n).map fun i => Call.mmap (attempt_args a e fd len prot i)

/-- The record of `mmap_fd` after an attempt whose `mmap` call returned `p`. -/
def attempted_object (a : Arch) (len prot : Nat) (name p : Nat) : object :=
  ⟨⟨p, name, if len = 0 then a.page_size else len, prot, maptype.MMAPED_FILE⟩⟩

/-! ## Concrete data used to exercise the statements -/

/-- A pool without any record and without destructor. -/
def empty_pool : Bool → objecttype → objhead :=
  fun _ _ => ⟨[], none⟩

/-- A state in the main process: no worker context, nothing registered. -/
def main_state : State :=
  ⟨[], empty_pool, none, fun _ => none, []⟩

/-- A read-only anonymous mapping of two pages. -/
def ro_map : map := ⟨0x7f0000000000, 1, 8192, PROT_READ, maptype.INITIAL_ANON⟩

/-- A read-only file mapping of one page. -/
def ro_file_map : map := ⟨0x7f0000004000, 2, 4096, PROT_READ, maptype.MMAPED_FILE⟩

/-- A write-only anonymous mapping of one page. -/
def wo_map : map := ⟨0x7f0000008000, 1, 4096, PROT_WRITE, maptype.INITIAL_ANON⟩

/-- A worker whose local scope holds read-only mappings only, one of each
class. -/
def ro_worker_state : State :=
  ⟨[some "anon", some "file"],
   fun g t =>
     if g = OBJ_LOCAL ∧ t = objecttype.OBJ_MMAP_ANON then ⟨[⟨ro_map⟩], none⟩
     else if g = OBJ_LOCAL ∧ t = objecttype.OBJ_MMAP_FILE then ⟨[⟨ro_file_map⟩], none⟩
     else ⟨[], none⟩,
   some ⟨⟨0, 0⟩⟩, fun _ => none, []⟩

/-- Four draws covering both classes and both outcomes of the read/write coin. -/
def four_draws : List Draw :=
  [⟨true, 7, true⟩, ⟨false, 3, true⟩, ⟨true, 0, false⟩, ⟨false, 12, false⟩]

/-- Page size 4096 with the mask `~(page_size - 1)` of an `unsigned int`. -/
def arch_4k : Arch := ⟨4096, 2 ^ 32 - 1 - (4096 - 1)⟩

/-- A worker assembling a syscall whose first argument points (address 64) at a
read-write mapping of three pages. -/
def arg_state : State :=
  ⟨[some "anon"], empty_pool, some ⟨⟨64, 5⟩⟩,
   fun p => if p = 64 then some ⟨0x7f0000000000, 1, 12288, 3, maptype.INITIAL_ANON⟩ else none,
   []⟩

/-- A worker assembling a syscall whose first argument holds no mapping. -/
def null_arg_state : State :=
  ⟨[], empty_pool, some ⟨⟨0, 5⟩⟩, fun _ => none, []⟩

/-- A state at worker start, after the fork: three anonymous mappings in the
global scope with three different provenance tags, nothing in the local
scope. -/
def fork_state : State :=
  ⟨[some "heap", some "stack", some "shm"],
   fun g t =>
     if g = OBJ_GLOBAL ∧ t = objecttype.OBJ_MMAP_ANON then
       ⟨[⟨⟨0x7f0000000000, 1, 4096, 3, maptype.INITIAL_ANON⟩⟩,
         ⟨⟨0x7f0000010000, 2, 8192, 1, maptype.MMAPED_FILE⟩⟩,
         ⟨⟨0x7f0000020000, 3, 1048576, 0, maptype.MMAPED_ANON⟩⟩], none⟩
     else ⟨[], none⟩,
   some ⟨⟨0, 0⟩⟩, fun _ => none, []⟩

/-- A world in which the mapping syscall fails on every attempt. -/
def env_always_fails : MmapEnv :=
  ⟨fun i => 5000 * i + 77777, fun i => i % 4, fun _ _ => MAP_FAILED⟩

/-- A world in which the mapping syscall fails twice and then succeeds. -/
def env_third_succeeds : MmapEnv :=
  ⟨fun i => 5000 * i + 77777, fun i => i % 4,
   fun i _ => if i < 2 then MAP_FAILED else 0x7f0000100000⟩

/-- A world in which the mapping syscall succeeds at once. -/
def env_first_succeeds : MmapEnv :=
  ⟨fun _ => 77777, fun _ => 2, fun _ _ => 0x7f0000100000⟩

/-! ## Properties of `dirty_mapping` and `dirty_random_mapping` -/

theorem write_calls_append (l1 l2 : List Call) :
    write_calls (l1 ++ l2) = write_calls l1 ++ write_calls l2 := by
  simp [write_calls, List.filterMap_append]

theorem read_calls_append (l1 l2 : List Call) :
    read_calls (l1 ++ l2) = read_calls l1 ++ read_calls l2 := by
  simp [read_calls, List.filterMap_append]

/-- What `dirty_mapping` does on a record whose protection is exactly
`PROT_READ`: a write attempt is abandoned, a read attempt is carried out. -/
theorem dirty_mapping_read_only (m : map) (rw : Bool) (s : State)
    (h : m.prot = PROT_READ) :
    dirty_mapping (some m) rw s =
      Except.ok (if rw = true then s else s.log (Call.random_map_readfn m)) := by
  have h1 : PROT_READ &&& not32 PROT_WRITE ≠ 0 := by decide
  have h2 : PROT_READ &&& not32 PROT_READ = 0 := by decide
  cases rw <;> simp [dirty_mapping, h, h1, h2]

/-- What `dirty_mapping` does on a record whose protection is exactly
`PROT_WRITE`: a read attempt is abandoned, a write attempt is carried out. -/
theorem dirty_mapping_write_only (m : map) (rw : Bool) (s : State)
    (h : m.prot = PROT_WRITE) :
    dirty_mapping (some m) rw s =
      Except.ok (if rw = true then s.log (Call.random_map_writefn m) else s) := by
  have h1 : PROT_WRITE &&& not32 PROT_WRITE = 0 := by decide
  have h2 : PROT_WRITE &&& not32 PROT_READ ≠ 0 := by decide
  cases rw <;> simp [dirty_mapping, h, h1, h2]

/-- The pool and the worker context that `get_map` reads are not changed by
`dirty_mapping`. -/
theorem dirty_mapping_get_map (m : Option map) (rw : Bool) (s s1 : State)
    (h : dirty_mapping m rw s = Except.ok s1) (coin : Bool) (r : Nat) :
    get_map s1 coin r = get_map s coin r := by
  cases m with
  | none => simp [dirty_mapping] at h
  | some m =>
    simp only [dirty_mapping] at h
    split at h <;> split at h <;> cases h <;> rfl

/-- C4: handed an absent mapping (`NULL`), `dirty_mapping` reads `map->prot`
and faults for both outcomes of the coin, and so does `dirty_random_mapping`
in a context where `get_map` finds no mapping; neither is a no-op. -/
theorem dirty_mapping_null_faults :
    (∀ (rw : Bool) (s : State), dirty_mapping none rw s = Except.error Fault.segv) ∧
    (∀ (coin : Bool) (r : Nat) (rw : Bool),
      get_map main_state coin r = none ∧
      dirty_random_mapping coin r rw main_state = Except.error Fault.segv) := by
  refine ⟨fun rw s => rfl, fun coin r rw => ?_⟩
  cases coin <;> exact ⟨rfl, rfl⟩

/-- C1: on a record whose protection is `PROT_NONE`, `dirty_mapping` invokes
the random-write primitive when the coin says write and the random-read
primitive when the coin says read, although neither bit is set. -/
theorem dirty_mapping_prot_none_touches_memory (ptr name size : Nat) (type : maptype)
    (s : State) :
    dirty_mapping (some ⟨ptr, name, size, PROT_NONE, type⟩) true s =
      Except.ok (s.log (Call.random_map_writefn ⟨ptr, name, size, PROT_NONE, type⟩)) ∧
    dirty_mapping (some ⟨ptr, name, size, PROT_NONE, type⟩) false s =
      Except.ok (s.log (Call.random_map_readfn ⟨ptr, name, size, PROT_NONE, type⟩)) := by
  have h1 : PROT_NONE &&& not32 PROT_WRITE = 0 := by decide
  have h2 : PROT_NONE &&& not32 PROT_READ = 0 := by decide
  constructor <;> simp [dirty_mapping, h1, h2]

/-- C2: on a record whose protection is `PROT_READ | PROT_WRITE`,
`dirty_mapping` abandons both the write attempt and the read attempt: the
state, and with it the log of calls, is returned as it was. -/
theorem dirty_mapping_read_write_abandoned (ptr name size : Nat) (type : maptype)
    (rw : Bool) (s : State) :
    dirty_mapping (some ⟨ptr, name, size, PROT_READ ||| PROT_WRITE, type⟩) rw s =
      Except.ok s := by
  have h1 : (PROT_READ ||| PROT_WRITE) &&& not32 PROT_WRITE ≠ 0 := by decide
  have h2 : (PROT_READ ||| PROT_WRITE) &&& not32 PROT_READ ≠ 0 := by decide
  cases rw <;> simp [dirty_mapping, h1, h2]

/-- C3: on a record whose protection is exactly `PROT_READ`, `dirty_mapping`
returns normally without any new invocation of the random-write primitive; on a
record whose protection is exactly `PROT_WRITE`, without any new invocation of
the random-read primitive; and a run of `dirty_random_mapping` calls in which
`get_map` returns a read-only record at every call returns normally without any
new invocation of the random-write primitive. -/
theorem dirty_mapping_exact_protection_respected :
    (∀ (m : map) (rw : Bool) (s : State), m.prot = PROT_READ →
      ∃ s1, dirty_mapping (some m) rw s = Except.ok s1 ∧
        write_calls s1.calls = write_calls s.calls) ∧
    (∀ (m : map) (rw : Bool) (s : State), m.prot = PROT_WRITE →
      ∃ s1, dirty_mapping (some m) rw s = Except.ok s1 ∧
        read_calls s1.calls = read_calls s.calls) ∧
    (∀ (ds : List Draw) (s : State),
      (∀ d ∈ ds, (get_map s d.coin d.r).map (fun m => m.prot) = some PROT_READ) →
      ∃ s1, dirty_random_mapping_seq ds s = Except.ok s1 ∧
        write_calls s1.calls = write_calls s.calls) := by
  refine ⟨?_, ?_, ?_⟩
  · intro m rw s h
    refine ⟨_, dirty_mapping_read_only m rw s h, ?_⟩
    cases rw <;> simp [State.log, write_calls_append, write_calls]
  · intro m rw s h
    refine ⟨_, dirty_mapping_write_only m rw s h, ?_⟩
    cases rw <;> simp [State.log, read_calls_append, read_calls]
  · intro ds
    induction ds with
    | nil => intro s _; exact ⟨s, rfl, rfl⟩
    | cons d ds ih =>
      intro s h
      have hd := h d (List.mem_cons_self d ds)
      cases hg : get_map s d.coin d.r with
      | none => simp [hg] at hd
      | some m =>
        have hp : m.prot = PROT_READ := by simpa [hg] using hd
        have hstep : dirty_random_mapping d.coin d.r d.rw s =
            Except.ok (if d.rw = true then s else s.log (Call.random_map_readfn m)) := by
          simp only [dirty_random_mapping, hg]
          exact dirty_mapping_read_only m d.rw s hp
        have hsame : ∀ (coin : Bool) (r : Nat),
            get_map (if d.rw = true then s else s.log (Call.random_map_readfn m)) coin r =
              get_map s coin r := by
          intro coin r
          cases d.rw <;> rfl
        obtain ⟨s2, hs2, hw⟩ := ih (if d.rw = true then s else s.log (Call.random_map_readfn m))
          (fun d1 hd1 => by rw [hsame]; exact h d1 (List.mem_cons_of_mem d hd1))
        refine ⟨s2, ?_, ?_⟩
        · simp only [dirty_random_mapping_seq, hstep]
          exact hs2
        · rw [hw]
          cases d.rw <;> simp [State.log, write_calls_append, write_calls]

/-- Instance of `dirty_mapping_exact_protection_respected`: a read-only record
under a write attempt, a write-only record under a read attempt, and four calls
of `dirty_random_mapping` by a worker whose local scope holds read-only
mappings only. -/
theorem dirty_mapping_exact_protection_respected_witness :
    (ro_map.prot = PROT_READ ∧
      ∃ s1, dirty_mapping (some ro_map) true ro_worker_state = Except.ok s1 ∧
        write_calls s1.calls = write_calls ro_worker_state.calls) ∧
    (wo_map.prot = PROT_WRITE ∧
      ∃ s1, dirty_mapping (some wo_map) false ro_worker_state = Except.ok s1 ∧
        read_calls s1.calls = read_calls ro_worker_state.calls) ∧
    ((∀ d ∈ four_draws,
        (get_map ro_worker_state d.coin d.r).map (fun m => m.prot) = some PROT_READ) ∧
      ∃ s1, dirty_random_mapping_seq four_draws ro_worker_state = Except.ok s1 ∧
        write_calls s1.calls = write_calls ro_worker_state.calls) :=
  ⟨⟨rfl, dirty_mapping_exact_protection_respected.1 ro_map true ro_worker_state rfl⟩,
   ⟨rfl, dirty_mapping_exact_protection_respected.2.1 wo_map false ro_worker_state rfl⟩,
   ⟨by decide,
    dirty_mapping_exact_protection_respected.2.2 four_draws ro_worker_state (by decide)⟩⟩

/-- The test `prot & ~PROT_WRITE` of `dirty_mapping` is zero exactly for the
masks `PROT_NONE` and `PROT_WRITE`. -/
theorem and_not32_write_eq_zero_iff (x : Nat) (hx : x < 2 ^ 32) :
    x &&& not32 PROT_WRITE = 0 ↔ x = PROT_NONE ∨ x = PROT_WRITE := by
  constructor
  · intro h
    have hsplit : x = (x &&& not32 PROT_WRITE) ||| (x &&& PROT_WRITE) := by
      rw [← Nat.and_or_distrib_left]
      have hall : not32 PROT_WRITE ||| PROT_WRITE = 2 ^ 32 - 1 := by decide
      rw [hall, Nat.and_pow_two_sub_one_of_lt_two_pow hx]
    rw [h, Nat.zero_or] at hsplit
    have hle : x &&& PROT_WRITE ≤ PROT_WRITE := Nat.and_le_right
    have hodd : ¬ ((x &&& PROT_WRITE) % 2 = 1) := by
      rw [Nat.and_mod_two_eq_one]
      intro hh
      exact absurd hh.2 (by decide)
    simp only [PROT_WRITE, PROT_NONE] at hle hodd hsplit ⊢
    omega
  · intro h
    rcases h with h | h <;> subst h <;> decide

/-- The test `prot & ~PROT_READ` of `dirty_mapping` is zero exactly for the
masks `PROT_NONE` and `PROT_READ`. -/
theorem and_not32_read_eq_zero_iff (x : Nat) (hx : x < 2 ^ 32) :
    x &&& not32 PROT_READ = 0 ↔ x = PROT_NONE ∨ x = PROT_READ := by
  constructor
  · intro h
    have hsplit : x = (x &&& not32 PROT_READ) ||| (x &&& PROT_READ) := by
      rw [← Nat.and_or_distrib_left]
      have hall : not32 PROT_READ ||| PROT_READ = 2 ^ 32 - 1 := by decide
      rw [hall, Nat.and_pow_two_sub_one_of_lt_two_pow hx]
    rw [h, Nat.zero_or] at hsplit
    have hle : x &&& PROT_READ ≤ PROT_READ := Nat.and_le_right
    simp only [PROT_READ, PROT_NONE] at hle hsplit ⊢
    omega
  · intro h
    rcases h with h | h <;> subst h <;> decide

/-- The protection masks on which `dirty_mapping` acts: the random-write
primitive is invoked, on a write attempt, exactly for the masks `PROT_NONE` and
`PROT_WRITE`, and the random-read primitive, on a read attempt, exactly for the
masks `PROT_NONE` and `PROT_READ`. -/
theorem dirty_mapping_acts_on (m : map) (s : State) (hprot : m.prot < 2 ^ 32) :
    dirty_mapping (some m) true s =
      Except.ok (if m.prot = PROT_NONE ∨ m.prot = PROT_WRITE
        then s.log (Call.random_map_writefn m) else s) ∧
    dirty_mapping (some m) false s =
      Except.ok (if m.prot = PROT_NONE ∨ m.prot = PROT_READ
        then s.log (Call.random_map_readfn m) else s) := by
  constructor
  · by_cases h : m.prot = PROT_NONE ∨ m.prot = PROT_WRITE
    · simp [dirty_mapping, h, (and_not32_write_eq_zero_iff m.prot hprot).mpr h]
    · have hne : ¬ (m.prot &&& not32 PROT_WRITE = 0) :=
        fun h0 => h ((and_not32_write_eq_zero_iff m.prot hprot).mp h0)
      simp [dirty_mapping, h, hne]
  · by_cases h : m.prot = PROT_NONE ∨ m.prot = PROT_READ
    · simp [dirty_mapping, h, (and_not32_read_eq_zero_iff m.prot hprot).mpr h]
    · have hne : ¬ (m.prot &&& not32 PROT_READ = 0) :=
        fun h0 => h ((and_not32_read_eq_zero_iff m.prot hprot).mp h0)
      simp [dirty_mapping, h, hne]

/-! ## Properties of `common_set_mmap_ptr_len` -/

/-- Masking with `~(2 ^ k - 1)` taken at a width `w` of at least `k` bits
yields a multiple of `2 ^ k`. -/
theorem and_page_mask_dvd (x k w : Nat) (hkw : k ≤ w) :
    2 ^ k ∣ x &&& (2 ^ w - 1 - (2 ^ k - 1)) := by
  have hpos : 0 < 2 ^ k := Nat.two_pow_pos k
  have hle : 2 ^ k ≤ 2 ^ w := Nat.pow_le_pow_right (by decide) hkw
  have hM : 2 ^ w - 1 - (2 ^ k - 1) = 2 ^ w - ((2 ^ k - 1) + 1) := by omega
  have hlt : 2 ^ k - 1 < 2 ^ w := by omega
  apply Nat.dvd_of_mod_eq_zero
  apply Nat.eq_of_testBit_eq
  intro i
  rw [hM, Nat.testBit_mod_two_pow, Nat.testBit_and, Nat.testBit_two_pow_sub_succ hlt,
    Nat.testBit_two_pow_sub_one, Nat.zero_testBit]
  by_cases hi : i < k <;> simp [hi]

/-- C9: `common_set_mmap_ptr_len` on the syscall record of the current worker,
with `page_size = 2 ^ k` and `PAGE_MASK = ~(page_size - 1)` taken at a width of
`w ≥ k` bits.  If the argument slot `a1` is null, both `a1` and `a2` become 0 and
`NULL` is returned.  Otherwise, for the mapping `m` that `a1` points to, with
`m.size > 0`, and for every random value, `a1` becomes `m.ptr`, `a2` becomes a
multiple of the page size below `m.size`, the pointer to `m` is returned, and
nothing but the syscall record changes, the map records in particular. -/
theorem common_set_mmap_ptr_len_spec (a : Arch) (k w : Nat) (hk : a.page_size = 2 ^ k)
    (hkw : k ≤ w) (hmask : a.PAGE_MASK = 2 ^ w - 1 - (a.page_size - 1))
    (rnd : Nat) (s : State) (c : childdata) (hc : s.child = some c) :
    (c.syscall.a1 = 0 →
      common_set_mmap_ptr_len a rnd s =
        Except.ok ({ s with child := some ⟨⟨0, 0⟩⟩ }, 0)) ∧
    (∀ m : map, c.syscall.a1 ≠ 0 → s.maps c.syscall.a1 = some m → 0 < m.size →
      ∃ a2 : Nat,
        common_set_mmap_ptr_len a rnd s =
          Except.ok ({ s with child := some ⟨⟨m.ptr, a2⟩⟩ }, c.syscall.a1) ∧
        a.page_size ∣ a2 ∧ 0 ≤ a2 ∧ a2 < m.size ∧
        ({ s with child := some ⟨⟨m.ptr, a2⟩⟩ } : State).maps c.syscall.a1 = some m) := by
  constructor
  · intro h0
    simp [common_set_mmap_ptr_len, hc, h0]
  · intro m hne hm hsz
    refine ⟨(rnd % 2 ^ 64 % m.size) &&& a.PAGE_MASK, ?_, ?_, Nat.zero_le _, ?_, hm⟩
    · have hsz0 : m.size ≠ 0 := Nat.pos_iff_ne_zero.mp hsz
      simp [common_set_mmap_ptr_len, hc, hne, hm, hsz0]
    · rw [hmask, hk]
      exact and_page_mask_dvd _ k w hkw
    · exact Nat.lt_of_le_of_lt Nat.and_le_left (Nat.mod_lt _ hsz)

/-- Instance of `common_set_mmap_ptr_len_spec`: 4096-byte pages with a 32-bit
mask, once with a null argument slot and once with a slot that points at a
mapping of three pages, random value 123456789. -/
theorem common_set_mmap_ptr_len_spec_witness :
    (common_set_mmap_ptr_len arch_4k 123456789 null_arg_state =
        Except.ok ({ null_arg_state with child := some ⟨⟨0, 0⟩⟩ }, 0)) ∧
    (∃ a2 : Nat,
        common_set_mmap_ptr_len arch_4k 123456789 arg_state =
          Except.ok ({ arg_state with child := some ⟨⟨0x7f0000000000, a2⟩⟩ }, 64) ∧
        arch_4k.page_size ∣ a2 ∧ 0 ≤ a2 ∧ a2 < 12288 ∧
        ({ arg_state with child := some ⟨⟨0x7f0000000000, a2⟩⟩ } : State).maps 64 =
          some ⟨0x7f0000000000, 1, 12288, 3, maptype.INITIAL_ANON⟩) :=
  ⟨(common_set_mmap_ptr_len_spec arch_4k 12 32 (by decide) (by decide) (by decide)
      123456789 null_arg_state ⟨⟨0, 5⟩⟩ rfl).1 rfl,
   (common_set_mmap_ptr_len_spec arch_4k 12 32 (by decide) (by decide) (by decide)
      123456789 arg_state ⟨⟨64, 5⟩⟩ rfl).2
      ⟨0x7f0000000000, 1, 12288, 3, maptype.INITIAL_ANON⟩ (by decide) rfl (by decide)⟩

/-! ## The heap of strings -/

theorem string_at_append_of_isSome (h t : List (Option String)) (p : Nat)
    (hp : (string_at h p).isSome) : string_at (h ++ t) p = string_at h p := by
  cases p with
  | zero => rfl
  | succ q =>
    simp only [string_at] at hp ⊢
    by_cases hq : q < h.length
    · rw [List.getElem?_append_left hq]
    · rw [List.getElem?_eq_none (Nat.le_of_not_lt hq)] at hp
      simp at hp

theorem string_at_length_succ (h t : List (Option String)) (x : Option String) :
    string_at (h ++ x :: t) (h.length + 1) = x := by
  simp only [string_at]
  rw [List.getElem?_append_right (Nat.le_refl _)]
  simp

theorem string_at_eq_none_of_length_lt (h : List (Option String)) (p : Nat)
    (hp : h.length < p) : string_at h p = none := by
  cases p with
  | zero => rfl
  | succ q =>
    simp only [string_at]
    rw [List.getElem?_eq_none (by omega)]
    rfl

theorem le_length_of_string_at_isSome (h : List (Option String)) (p : Nat)
    (hp : (string_at h p).isSome) : p ≤ h.length := by
  by_contra hlt
  rw [string_at_eq_none_of_length_lt h p (by omega)] at hp
  simp at hp

/-! ## Properties of `init_child_mappings` -/

theorem inherited_copies_length (G : List object) :
    ∀ base : Nat, (inherited_copies base G).length = G.length := by
  induction G with
  | nil => intro base; rfl
  | cons g rest ih => intro base; simp [inherited_copies, ih]

theorem inherited_copies_getElem? (G : List object) :
    ∀ (base i : Nat), (inherited_copies base G)[i]? =
      G[i]?.map fun g =>
        ⟨⟨g.map.ptr, base + i + 1, g.map.size, g.map.prot, maptype.INITIAL_ANON⟩⟩ := by
  induction G with
  | nil => intro base i; simp [inherited_copies]
  | cons g rest ih =>
    intro base i
    cases i with
    | zero => simp [inherited_copies]
    | succ j =>
      simp only [inherited_copies, List.getElem?_cons_succ, ih]
      have : base + 1 + j + 1 = base + (j + 1) + 1 := by omega
      rw [this]

/-- What the loop of `init_child_mappings` does to a state, for a list of
global records whose names are live strings. -/
theorem init_child_mappings_loop_spec (G : List object) :
    ∀ s : State, (∀ o ∈ G, (string_at s.strings o.map.name).isSome) →
      ∃ s1, init_child_mappings_loop G s = Except.ok s1 ∧
        s1.strings = s.strings ++ G.map (fun o => string_at s.strings o.map.name) ∧
        (s1.objects OBJ_LOCAL objecttype.OBJ_MMAP_ANON).list =
          (s.objects OBJ_LOCAL objecttype.OBJ_MMAP_ANON).list ++
            inherited_copies s.strings.length G ∧
        (s1.objects OBJ_LOCAL objecttype.OBJ_MMAP_ANON).destroy =
          (s.objects OBJ_LOCAL objecttype.OBJ_MMAP_ANON).destroy ∧
        (∀ g t, ¬ (g = OBJ_LOCAL ∧ t = objecttype.OBJ_MMAP_ANON) →
          s1.objects g t = s.objects g t) ∧
        s1.child = s.child ∧ s1.maps = s.maps ∧ s1.calls = s.calls := by
  induction G with
  | nil =>
    intro s _
    exact ⟨s, rfl, by simp, by simp [inherited_copies], rfl, fun _ _ _ => rfl, rfl, rfl, rfl⟩
  | cons g rest ih =>
    intro s hnames
    have hg := hnames g (List.mem_cons_self g rest)
    obtain ⟨str, hstr⟩ := Option.isSome_iff_exists.mp hg
    have hrest : ∀ o ∈ rest,
        (string_at (s.strings ++ [some str]) o.map.name).isSome := by
      intro o ho
      have h1 := hnames o (List.mem_cons_of_mem g ho)
      rw [string_at_append_of_isSome _ _ _ h1]
      exact h1
    have hcongr : rest.map (fun o => string_at (s.strings ++ [some str]) o.map.name) =
        rest.map (fun o => string_at s.strings o.map.name) := by
      apply List.map_congr_left
      intro o ho
      exact string_at_append_of_isSome _ _ _ (hnames o (List.mem_cons_of_mem g ho))
    obtain ⟨s1, hrun, hstrs, hlist, hdestroy, hother, hchild, hmaps, hcalls⟩ :=
      ih (add_object
        ⟨⟨g.map.ptr, s.strings.length + 1, g.map.size, g.map.prot, maptype.INITIAL_ANON⟩⟩
        OBJ_LOCAL objecttype.OBJ_MMAP_ANON { s with strings := s.strings ++ [some str] }) hrest
    refine ⟨s1, ?_, ?_, ?_, ?_, ?_, ?_, ?_, ?_⟩
    · simp only [init_child_mappings_loop, hstr, strdup, alloc_object]
      exact hrun
    · rw [hstrs]
      simp only [add_object, set_objhead, get_objhead, List.map_cons, hstr, hcongr]
      simp
    · rw [hlist]
      simp [add_object, set_objhead, get_objhead, inherited_copies]
    · rw [hdestroy]
      simp [add_object, set_objhead, get_objhead]
    · intro g1 t1 hne
      rw [hother g1 t1 hne]
      simp [add_object, set_objhead, get_objhead, hne]
    · rw [hchild]; rfl
    · rw [hmaps]; rfl
    · rw [hcalls]; rfl

/-- C5: `init_child_mappings`, run for a worker whose local anonymous list is
empty while every record of the global anonymous list has a live name, returns
normally and leaves a local anonymous list as long as the global one; its i-th
record has the address, size and protection of the i-th global record,
provenance `INITIAL_ANON`, and a name held in a string cell of its own (a cell
that was not live before, the i-th fresh one, other than the cell of the global
name) with the content of the global name, which stays in place; the global
partitions are unchanged and the local anonymous head has `map_destructor` as
destructor. -/
theorem init_child_mappings_copies_global_list (s : State)
    (hlocal : (s.objects OBJ_LOCAL objecttype.OBJ_MMAP_ANON).list = [])
    (hnames : ∀ o ∈ (s.objects OBJ_GLOBAL objecttype.OBJ_MMAP_ANON).list,
      (string_at s.strings o.map.name).isSome) :
    ∃ s1, init_child_mappings s = Except.ok s1 ∧
      (s1.objects OBJ_LOCAL objecttype.OBJ_MMAP_ANON).list.length =
        (s.objects OBJ_GLOBAL objecttype.OBJ_MMAP_ANON).list.length ∧
      (∀ (i : Nat) (g : object),
        (s.objects OBJ_GLOBAL objecttype.OBJ_MMAP_ANON).list[i]? = some g →
        ∃ l : object,
          (s1.objects OBJ_LOCAL objecttype.OBJ_MMAP_ANON).list[i]? = some l ∧
          l.map.ptr = g.map.ptr ∧ l.map.size = g.map.size ∧ l.map.prot = g.map.prot ∧
          l.map.type = maptype.INITIAL_ANON ∧
          l.map.name = s.strings.length + i + 1 ∧
          l.map.name ≠ g.map.name ∧
          string_at s.strings l.map.name = none ∧
          string_at s1.strings l.map.name = string_at s.strings g.map.name ∧
          string_at s1.strings g.map.name = string_at s.strings g.map.name) ∧
      (∀ t, s1.objects OBJ_GLOBAL t = s.objects OBJ_GLOBAL t) ∧
      (s1.objects OBJ_LOCAL objecttype.OBJ_MMAP_ANON).destroy =
        some destructor.map_destructor := by
  have hglobal : ∀ t,
      (set_objhead s OBJ_LOCAL objecttype.OBJ_MMAP_ANON
        { get_objhead s OBJ_LOCAL objecttype.OBJ_MMAP_ANON with
          destroy := some destructor.map_destructor }).objects OBJ_GLOBAL t =
        s.objects OBJ_GLOBAL t := by
    intro t
    simp [set_objhead, OBJ_GLOBAL, OBJ_LOCAL]
  obtain ⟨s1, hrun, hstrs, hlist, hdestroy, hother, -, -, -⟩ :=
    init_child_mappings_loop_spec (s.objects OBJ_GLOBAL objecttype.OBJ_MMAP_ANON).list
      (set_objhead s OBJ_LOCAL objecttype.OBJ_MMAP_ANON
        { get_objhead s OBJ_LOCAL objecttype.OBJ_MMAP_ANON with
          destroy := some destructor.map_destructor }) hnames
  have hstrs1 : s1.strings = s.strings ++
      (s.objects OBJ_GLOBAL objecttype.OBJ_MMAP_ANON).list.map
        (fun o => string_at s.strings o.map.name) := hstrs
  have hlist1 : (s1.objects OBJ_LOCAL objecttype.OBJ_MMAP_ANON).list =
      inherited_copies s.strings.length
        (s.objects OBJ_GLOBAL objecttype.OBJ_MMAP_ANON).list := by
    rw [hlist]
    simp [set_objhead, get_objhead, hlocal]
  refine ⟨s1, ?_, ?_, ?_, ?_, ?_⟩
  · simp only [init_child_mappings, hglobal]
    exact hrun
  · rw [hlist1, inherited_copies_length]
  · intro i g hg
    have hlive := hnames g (List.getElem?_mem hg)
    have hle := le_length_of_string_at_isSome _ _ hlive
    have hi : i < (s.objects OBJ_GLOBAL objecttype.OBJ_MMAP_ANON).list.length := by
      by_contra hge
      rw [List.getElem?_eq_none (Nat.le_of_not_lt hge)] at hg
      cases hg
    refine ⟨⟨⟨g.map.ptr, s.strings.length + i + 1, g.map.size, g.map.prot,
      maptype.INITIAL_ANON⟩⟩, ?_, rfl, rfl, rfl, rfl, rfl, ?_, ?_, ?_, ?_⟩
    · rw [hlist1, inherited_copies_getElem?, hg]
      rfl
    · show s.strings.length + i + 1 ≠ g.map.name
      omega
    · exact string_at_eq_none_of_length_lt _ _ (by show _ < s.strings.length + i + 1; omega)
    · show string_at s1.strings (s.strings.length + i + 1) = _
      rw [hstrs1]
      simp only [string_at]
      rw [List.getElem?_append_right (by omega)]
      simp [hg]
    · rw [hstrs1]
      exact string_at_append_of_isSome _ _ _ hlive
  · intro t
    rw [hother OBJ_GLOBAL t (by simp [OBJ_GLOBAL, OBJ_LOCAL])]
    exact hglobal t
  · rw [hdestroy]
    simp [set_objhead]

/-- Instance of `init_child_mappings_copies_global_list`: three global
anonymous records with three different provenance tags. -/
theorem init_child_mappings_copies_global_list_witness :
    (fork_state.objects OBJ_LOCAL objecttype.OBJ_MMAP_ANON).list = [] ∧
    (∀ o ∈ (fork_state.objects OBJ_GLOBAL objecttype.OBJ_MMAP_ANON).list,
      (string_at fork_state.strings o.map.name).isSome) ∧
    ∃ s1, init_child_mappings fork_state = Except.ok s1 ∧
      (s1.objects OBJ_LOCAL objecttype.OBJ_MMAP_ANON).list.length =
        (fork_state.objects OBJ_GLOBAL objecttype.OBJ_MMAP_ANON).list.length ∧
      (∀ (i : Nat) (g : object),
        (fork_state.objects OBJ_GLOBAL objecttype.OBJ_MMAP_ANON).list[i]? = some g →
        ∃ l : object,
          (s1.objects OBJ_LOCAL objecttype.OBJ_MMAP_ANON).list[i]? = some l ∧
          l.map.ptr = g.map.ptr ∧ l.map.size = g.map.size ∧ l.map.prot = g.map.prot ∧
          l.map.type = maptype.INITIAL_ANON ∧
          l.map.name = fork_state.strings.length + i + 1 ∧
          l.map.name ≠ g.map.name ∧
          string_at fork_state.strings l.map.name = none ∧
          string_at s1.strings l.map.name = string_at fork_state.strings g.map.name ∧
          string_at s1.strings g.map.name = string_at fork_state.strings g.map.name) ∧
      (∀ t, s1.objects OBJ_GLOBAL t = fork_state.objects OBJ_GLOBAL t) ∧
      (s1.objects OBJ_LOCAL objecttype.OBJ_MMAP_ANON).destroy =
        some destructor.map_destructor :=
  ⟨rfl, by decide, init_child_mappings_copies_global_list fork_state rfl (by decide)⟩

/-! ## Properties of `mmap_fd` -/

theorem attempt_log_succ (a : Arch) (e : MmapEnv) (fd : Int) (len prot first n : Nat) :
    attempt_log a e fd len prot first (n + 1) =
      Call.mmap (attempt_args a e fd len prot first) ::
        attempt_log a e fd len prot (first + 1) n := by
  simp [attempt_log, List.range'_succ]

/-- The loop of `mmap_fd` when every remaining attempt fails: the attempts are
made up to the hundredth, then the name and the record are released. -/
theorem retry_mmap_all_fail (a : Arch) (e : MmapEnv) (fd : Int) (len prot : Nat)
    (global : Bool) (type : objecttype) (fuel : Nat) :
    ∀ (retries : Nat) (obj : object) (s : State),
      retries + fuel = 100 → 0 < fuel → (len ≠ 0 → obj.map.size = len) →
      (∀ i, retries ≤ i → i < 100 →
        e.mmap i (attempt_args a e fd len prot i) = MAP_FAILED) →
      retry_mmap a e fd len prot global type fuel retries obj s =
        some { s with
          strings := free_string s.strings obj.map.name
          calls := s.calls ++ attempt_log a e fd len prot retries fuel ++
            [Call.free_name obj.map.name,
             Call.free_object (attempted_object a len prot obj.map.name MAP_FAILED)] } := by
  induction fuel with
  | zero => intro retries obj s _ h; exact absurd h (Nat.lt_irrefl 0)
  | succ n ih =>
    intro retries obj s hsum _ hsize hfail
    have hargs : (⟨len, prot, e.get_rand_mmap_flags retries, fd,
        if len = 0 then 0 else (e.rnd retries % 2 ^ 64 % obj.map.size) &&& a.PAGE_MASK⟩ :
          MmapArgs) = attempt_args a e fd len prot retries := by
      by_cases hl : len = 0
      · simp [attempt_args, hl]
      · simp [attempt_args, hl, hsize hl]
    have hf := hfail retries (Nat.le_refl _) (by omega)
    simp only [retry_mmap, hargs, hf, if_true]
    by_cases hlast : retries + 1 = 100
    · have hn : n = 0 := by omega
      subst hn
      by_cases hl : len = 0
      · simp [hlast, State.log, attempt_log, attempted_object, hl]
      · simp [hlast, State.log, attempt_log, attempted_object, hl, hsize hl]
    · simp only [hlast, if_false]
      rw [ih (retries + 1) _ _ (by omega) (by omega)
        (by intro hl; simp [hl, hsize hl])
        (fun i h1 h2 => hfail i (by omega) h2)]
      by_cases hl : len = 0
      · simp [State.log, attempt_log_succ, attempted_object, hl]
      · simp [State.log, attempt_log_succ, attempted_object, hl]

/-- The loop of `mmap_fd` when attempt `k` is the first to succeed: the
attempts up to `k` are made, then the record is registered. -/
theorem retry_mmap_success (a : Arch) (e : MmapEnv) (fd : Int) (len prot : Nat)
    (global : Bool) (type : objecttype) (fuel : Nat) :
    ∀ (retries : Nat) (obj : object) (s : State) (k : Nat),
      retries + fuel = 100 → retries ≤ k → k < 100 → (len ≠ 0 → obj.map.size = len) →
      (∀ i, retries ≤ i → i < k →
        e.mmap i (attempt_args a e fd len prot i) = MAP_FAILED) →
      e.mmap k (attempt_args a e fd len prot k) ≠ MAP_FAILED →
      retry_mmap a e fd len prot global type fuel retries obj s =
        some (add_object
          (attempted_object a len prot obj.map.name
            (e.mmap k (attempt_args a e fd len prot k)))
          global type
          { s with calls := s.calls ++ attempt_log a e fd len prot retries (k + 1 - retries) }) := by
  induction fuel with
  | zero => intro retries obj s k hsum hle hk; omega
  | succ n ih =>
    intro retries obj s k hsum hle hk hsize hfail hok
    have hargs : (⟨len, prot, e.get_rand_mmap_flags retries, fd,
        if len = 0 then 0 else (e.rnd retries % 2 ^ 64 % obj.map.size) &&& a.PAGE_MASK⟩ :
          MmapArgs) = attempt_args a e fd len prot retries := by
      by_cases hl : len = 0
      · simp [attempt_args, hl]
      · simp [attempt_args, hl, hsize hl]
    by_cases hrk : retries = k
    · subst hrk
      have h1 : retries + 1 - retries = 1 := by omega
      simp only [retry_mmap, hargs, hok, if_false, h1]
      by_cases hl : len = 0
      · simp [State.log, attempt_log, attempted_object, hl]
      · simp [State.log, attempt_log, attempted_object, hl, hsize hl]
    · have hf := hfail retries (Nat.le_refl _) (by omega)
      have hlast : ¬ retries + 1 = 100 := by omega
      have hcount : k + 1 - retries = (k + 1 - (retries + 1)) + 1 := by omega
      simp only [retry_mmap, hargs, hf, if_true, hlast, if_false]
      rw [ih (retries + 1) _ _ k (by omega) (by omega) hk
        (by intro hl; simp [hl, hsize hl])
        (fun i h1 h2 => hfail i (by omega) h2) hok, hcount]
      by_cases hl : len = 0
      · simp [State.log, attempt_log_succ, attempted_object, hl]
      · simp [State.log, attempt_log_succ, attempted_object, hl]

theorem free_string_strdup (h : List (Option String)) (x : String) :
    free_string (h ++ [some x]) (h.length + 1) = h ++ [none] := by
  simp [free_string]

theorem mmap_calls_append (l1 l2 : List Call) :
    mmap_calls (l1 ++ l2) = mmap_calls l1 ++ mmap_calls l2 := by
  simp [mmap_calls, List.filterMap_append]

theorem mmap_calls_attempt_log (a : Arch) (e : MmapEnv) (fd : Int) (len prot first n : Nat) :
    mmap_calls (attempt_log a e fd len prot first n) =
      (List.range' first n).map (attempt_args a e fd len prot) := by
  simp only [mmap_calls, attempt_log, List.filterMap_map]
  rw [← List.filterMap_eq_map]
  rfl

/-- The result of `mmap_fd` when all of the hundred attempts fail. -/
theorem mmap_fd_abandoned (a : Arch) (e : MmapEnv) (fd : Int) (name : String)
    (len prot : Nat) (global : Bool) (type : objecttype) (s : State)
    (hfail : ∀ i, i < 100 → e.mmap i (attempt_args a e fd len prot i) = MAP_FAILED) :
    mmap_fd a e fd name len prot global type s =
      some { s with
        strings := s.strings ++ [none]
        calls := s.calls ++ attempt_log a e fd len prot 0 100 ++
          [Call.free_name (s.strings.length + 1),
           Call.free_object
             (attempted_object a len prot (s.strings.length + 1) MAP_FAILED)] } := by
  simp only [mmap_fd, strdup, alloc_object]
  rw [retry_mmap_all_fail a e fd len prot global type 100 0 _ _ rfl (by decide)
    (fun _ => rfl) (fun i _ h => hfail i h)]
  simp [free_string_strdup]

/-- The result of `mmap_fd` when attempt `k` is the first to succeed. -/
theorem mmap_fd_registered (a : Arch) (e : MmapEnv) (fd : Int) (name : String)
    (len prot : Nat) (global : Bool) (type : objecttype) (s : State) (k : Nat)
    (hk : k < 100)
    (hfail : ∀ i, i < k → e.mmap i (attempt_args a e fd len prot i) = MAP_FAILED)
    (hok : e.mmap k (attempt_args a e fd len prot k) ≠ MAP_FAILED) :
    mmap_fd a e fd name len prot global type s =
      some (add_object
        (attempted_object a len prot (s.strings.length + 1)
          (e.mmap k (attempt_args a e fd len prot k)))
        global type
        { s with
          strings := s.strings ++ [some name]
          calls := s.calls ++ attempt_log a e fd len prot 0 (k + 1) }) := by
  simp only [mmap_fd, strdup, alloc_object]
  rw [retry_mmap_success a e fd len prot global type 100 0 _ _ k rfl (Nat.zero_le k) hk
    (fun _ => rfl) (fun i _ h => hfail i h) hok]
  rfl

/-- Among the hundred attempts either all fail or there is a first one that
succeeds. -/
theorem first_success_or_all_fail (e : MmapEnv) (f : Nat → MmapArgs) :
    (∀ i, i < 100 → e.mmap i (f i) = MAP_FAILED) ∨
    ∃ k, k < 100 ∧ (∀ i, i < k → e.mmap i (f i) = MAP_FAILED) ∧
      e.mmap k (f k) ≠ MAP_FAILED := by
  by_cases h : ∃ i, i < 100 ∧ e.mmap i (f i) ≠ MAP_FAILED
  · right
    refine ⟨Nat.find h, (Nat.find_spec h).1, ?_, (Nat.find_spec h).2⟩
    intro i hi
    by_contra hne
    exact Nat.find_min h hi ⟨Nat.lt_trans hi (Nat.find_spec h).1, hne⟩
  · left
    intro i hi
    by_contra hne
    exact h ⟨i, hi, hne⟩

theorem list_ne_append_singleton {α : Type} (l : List α) (x : α) : l ≠ l ++ [x] := by
  intro h
  have := congrArg List.length h
  simp at this

/-- C6: when the mapping syscall fails on each of the attempts, `mmap_fd`
returns after exactly 100 `mmap` calls followed by the release of the name
(freed string cell, the one `strdup` had taken) and of the record; every
partition of the pool, the worker context and the map records are as before. -/
theorem mmap_fd_all_attempts_fail (a : Arch) (e : MmapEnv) (fd : Int) (name : String)
    (len prot : Nat) (global : Bool) (type : objecttype) (s : State)
    (hfail : ∀ i, i < 100 → e.mmap i (attempt_args a e fd len prot i) = MAP_FAILED) :
    ∃ (s1 : State) (obj : object),
      mmap_fd a e fd name len prot global type s = some s1 ∧
      s1.calls = s.calls ++ attempt_log a e fd len prot 0 100 ++
        [Call.free_name obj.map.name, Call.free_object obj] ∧
      (mmap_calls s1.calls).length = (mmap_calls s.calls).length + 100 ∧
      obj.map.name = s.strings.length + 1 ∧
      s1.strings = s.strings ++ [none] ∧
      string_at s1.strings obj.map.name = none ∧
      s1.objects = s.objects ∧ s1.child = s.child ∧ s1.maps = s.maps := by
  refine ⟨_, attempted_object a len prot (s.strings.length + 1) MAP_FAILED,
    mmap_fd_abandoned a e fd name len prot global type s hfail, rfl, ?_, rfl, rfl, ?_,
    rfl, rfl, rfl⟩
  · simp only [mmap_calls_append, mmap_calls_attempt_log, List.length_append,
      List.length_map, List.length_range']
    simp [mmap_calls]
  · exact string_at_length_succ s.strings [] none

/-- Instance of `mmap_fd_all_attempts_fail`: a request of 10000 bytes in a world
where the mapping syscall always fails. -/
theorem mmap_fd_all_attempts_fail_witness :
    (∀ i, i < 100 →
      env_always_fails.mmap i (attempt_args arch_4k env_always_fails 3 10000 3 i) =
        MAP_FAILED) ∧
    ∃ (s1 : State) (obj : object),
      mmap_fd arch_4k env_always_fails 3 "file" 10000 3 OBJ_LOCAL
        objecttype.OBJ_MMAP_FILE ro_worker_state = some s1 ∧
      s1.calls = ro_worker_state.calls ++
        attempt_log arch_4k env_always_fails 3 10000 3 0 100 ++
        [Call.free_name obj.map.name, Call.free_object obj] ∧
      (mmap_calls s1.calls).length = (mmap_calls ro_worker_state.calls).length + 100 ∧
      obj.map.name = ro_worker_state.strings.length + 1 ∧
      s1.strings = ro_worker_state.strings ++ [none] ∧
      string_at s1.strings obj.map.name = none ∧
      s1.objects = ro_worker_state.objects ∧ s1.child = ro_worker_state.child ∧
      s1.maps = ro_worker_state.maps :=
  ⟨fun _ _ => rfl,
   mmap_fd_all_attempts_fail arch_4k env_always_fails 3 "file" 10000 3 OBJ_LOCAL
     objecttype.OBJ_MMAP_FILE ro_worker_state (fun _ _ => rfl)⟩

/-- C7: a call of `mmap_fd` with length 0 in which one of the hundred attempts
succeeds registers exactly one record, at the end of the partition of the
requested scope and class, with size `page_size`, protection `prot`, provenance
`MMAPED_FILE`, the address the kernel returned and the duplicated name; the
other partitions are unchanged; and every `mmap` call made, up to the one that
succeeded, had offset 0. -/
theorem mmap_fd_zero_length (a : Arch) (e : MmapEnv) (fd : Int) (name : String)
    (prot : Nat) (global : Bool) (type : objecttype) (s : State)
    (h : ∃ i, i < 100 ∧ e.mmap i (attempt_args a e fd 0 prot i) ≠ MAP_FAILED) :
    ∃ (s1 : State) (k p : Nat),
      mmap_fd a e fd name 0 prot global type s = some s1 ∧
      k < 100 ∧ p ≠ MAP_FAILED ∧
      (s1.objects global type).list = (s.objects global type).list ++
        [⟨⟨p, s.strings.length + 1, a.page_size, prot, maptype.MMAPED_FILE⟩⟩] ∧
      (s1.objects global type).destroy = (s.objects global type).destroy ∧
      (∀ g t, ¬ (g = global ∧ t = type) → s1.objects g t = s.objects g t) ∧
      string_at s1.strings (s.strings.length + 1) = some name ∧
      s1.calls = s.calls ++ (List.range' 0 (k + 1)).map
        (fun i => Call.mmap ⟨0, prot, e.get_rand_mmap_flags i, fd, 0⟩) := by
  rcases first_success_or_all_fail e (attempt_args a e fd 0 prot) with hall | ⟨k, hk, hfail, hok⟩
  · obtain ⟨i, hi, hne⟩ := h
    exact absurd (hall i hi) hne
  · refine ⟨_, k, e.mmap k (attempt_args a e fd 0 prot k),
      mmap_fd_registered a e fd name 0 prot global type s k hk hfail hok, hk, hok,
      ?_, ?_, ?_, ?_, ?_⟩
    · simp [add_object, set_objhead, get_objhead, attempted_object]
    · simp [add_object, set_objhead, get_objhead]
    · intro g t hne
      simp [add_object, set_objhead, get_objhead, hne]
    · exact string_at_length_succ s.strings [] (some name)
    · simp [add_object, set_objhead, attempt_log, attempt_args]

/-- Instance of `mmap_fd_zero_length`: a read-write mapping of length 0 in the
local scope, in a world where the third attempt succeeds. -/
theorem mmap_fd_zero_length_witness :
    (∃ i, i < 100 ∧
      env_third_succeeds.mmap i (attempt_args arch_4k env_third_succeeds 3 0 3 i) ≠
        MAP_FAILED) ∧
    ∃ (s1 : State) (k p : Nat),
      mmap_fd arch_4k env_third_succeeds 3 "file" 0 3 OBJ_LOCAL
        objecttype.OBJ_MMAP_FILE main_state = some s1 ∧
      k < 100 ∧ p ≠ MAP_FAILED ∧
      (s1.objects OBJ_LOCAL objecttype.OBJ_MMAP_FILE).list =
        (main_state.objects OBJ_LOCAL objecttype.OBJ_MMAP_FILE).list ++
        [⟨⟨p, main_state.strings.length + 1, arch_4k.page_size, 3,
          maptype.MMAPED_FILE⟩⟩] ∧
      (s1.objects OBJ_LOCAL objecttype.OBJ_MMAP_FILE).destroy =
        (main_state.objects OBJ_LOCAL objecttype.OBJ_MMAP_FILE).destroy ∧
      (∀ g t, ¬ (g = OBJ_LOCAL ∧ t = objecttype.OBJ_MMAP_FILE) →
        s1.objects g t = main_state.objects g t) ∧
      string_at s1.strings (main_state.strings.length + 1) = some "file" ∧
      s1.calls = main_state.calls ++ (List.range' 0 (k + 1)).map
        (fun i => Call.mmap ⟨0, 3, env_third_succeeds.get_rand_mmap_flags i, 3, 0⟩) :=
  ⟨⟨2, by decide, by decide⟩,
   mmap_fd_zero_length arch_4k env_third_succeeds 3 "file" 3 OBJ_LOCAL
     objecttype.OBJ_MMAP_FILE main_state ⟨2, by decide, by decide⟩⟩

/-- C8, as the code has it: `mmap_fd` always returns, and when it returns having
registered a record (the partition of the requested scope and class grew by
the record `o`), the size of `o` is `page_size` for a requested length of 0 and
the requested length itself otherwise; with a positive page size it is then a
positive multiple of the page size exactly when the requested length is 0 or a
multiple of the page size. -/
theorem mmap_fd_registered_size (a : Arch) (e : MmapEnv) (fd : Int) (name : String)
    (len prot : Nat) (global : Bool) (type : objecttype) (s : State) :
    ∃ s1 : State,
      mmap_fd a e fd name len prot global type s = some s1 ∧
      ∀ o : object,
        (s1.objects global type).list = (s.objects global type).list ++ [o] →
        o.map.size = (if len = 0 then a.page_size else len) ∧
        (0 < a.page_size →
          ((0 < o.map.size ∧ a.page_size ∣ o.map.size) ↔
            (len = 0 ∨ a.page_size ∣ len))) := by
  have hsize : ∀ o : object, o.map.size = (if len = 0 then a.page_size else len) →
      (0 < a.page_size →
        ((0 < o.map.size ∧ a.page_size ∣ o.map.size) ↔ (len = 0 ∨ a.page_size ∣ len))) := by
    intro o ho hpos
    by_cases hl : len = 0
    · simp [ho, hl, hpos]
    · simp [ho, hl, Nat.pos_of_ne_zero hl]
  rcases first_success_or_all_fail e (attempt_args a e fd len prot) with
    hall | ⟨k, hk, hfail, hok⟩
  · refine ⟨_, mmap_fd_abandoned a e fd name len prot global type s hall, ?_⟩
    intro o ho
    exact absurd ho (list_ne_append_singleton _ o)
  · refine ⟨_, mmap_fd_registered a e fd name len prot global type s k hk hfail hok, ?_⟩
    intro o ho
    have ho1 : o = attempted_object a len prot (s.strings.length + 1)
        (e.mmap k (attempt_args a e fd len prot k)) := by
      simp [add_object, set_objhead, get_objhead] at ho
      exact ho.symm
    have ho2 : o.map.size = (if len = 0 then a.page_size else len) := by
      rw [ho1]; rfl
    exact ⟨ho2, hsize o ho2⟩

/-- Instance of `mmap_fd_registered_size`: a request of two pages that is
registered at the third attempt. -/
theorem mmap_fd_registered_size_witness :
    ∃ s1 : State,
      mmap_fd arch_4k env_third_succeeds 3 "file" 8192 3 OBJ_LOCAL
        objecttype.OBJ_MMAP_FILE main_state = some s1 ∧
      (s1.objects OBJ_LOCAL objecttype.OBJ_MMAP_FILE).list =
        (main_state.objects OBJ_LOCAL objecttype.OBJ_MMAP_FILE).list ++
          [⟨⟨0x7f0000100000, 1, 8192, 3, maptype.MMAPED_FILE⟩⟩] ∧
      0 < arch_4k.page_size ∧
      (8192 : Nat) = (if 8192 = 0 then arch_4k.page_size else 8192) ∧
      ((0 < 8192 ∧ arch_4k.page_size ∣ 8192) ↔ (8192 = 0 ∨ arch_4k.page_size ∣ 8192)) := by
  obtain ⟨s1, h1, h2⟩ := mmap_fd_registered_size arch_4k env_third_succeeds 3 "file" 8192 3
    OBJ_LOCAL objecttype.OBJ_MMAP_FILE main_state
  have hev : (mmap_fd arch_4k env_third_succeeds 3 "file" 8192 3 OBJ_LOCAL
      objecttype.OBJ_MMAP_FILE main_state).map
        (fun s => (s.objects OBJ_LOCAL objecttype.OBJ_MMAP_FILE).list) =
      some [⟨⟨0x7f0000100000, 1, 8192, 3, maptype.MMAPED_FILE⟩⟩] := by decide
  have hl : (s1.objects OBJ_LOCAL objecttype.OBJ_MMAP_FILE).list =
      (main_state.objects OBJ_LOCAL objecttype.OBJ_MMAP_FILE).list ++
        [⟨⟨0x7f0000100000, 1, 8192, 3, maptype.MMAPED_FILE⟩⟩] := by
    rw [h1] at hev
    simpa using hev
  exact ⟨s1, h1, hl, by decide, (h2 _ hl).1, (h2 _ hl).2 (by decide)⟩

/-- C8, counterexample: a request of 1 byte that the kernel grants at once is
registered with size 1, which is no multiple of the page size 4096. -/
theorem mmap_fd_one_byte_registered :
    (mmap_fd arch_4k env_first_succeeds 3 "file" 1 3 OBJ_LOCAL
      objecttype.OBJ_MMAP_FILE main_state).map
        (fun s => (s.objects OBJ_LOCAL objecttype.OBJ_MMAP_FILE).list) =
      some [⟨⟨0x7f0000100000, 1, 1, 3, maptype.MMAPED_FILE⟩⟩] ∧
    ¬ (arch_4k.page_size ∣ 1) := by
  decide

/-- C10: with a requested length of 0 and a kernel that grants the first call,
`mmap_fd` passes length 0 to `mmap` and registers a record of size `page_size`
at the address returned; `map_destructor` on that record then passes
`page_size` to `munmap`. -/
theorem mmap_fd_length_zero_mismatch (a : Arch) (fd : Int) (name : String) (prot : Nat)
    (global : Bool) (type : objecttype) (s : State) :
    mmap_fd a env_first_succeeds fd name 0 prot global type s =
      some (add_object
        ⟨⟨0x7f0000100000, s.strings.length + 1, a.page_size, prot, maptype.MMAPED_FILE⟩⟩
        global type
        { s with
          strings := s.strings ++ [some name]
          calls := s.calls ++ [Call.mmap ⟨0, prot, 2, fd, 0⟩] }) ∧
    ∀ s2 : State,
      (map_destructor
        ⟨⟨0x7f0000100000, s.strings.length + 1, a.page_size, prot, maptype.MMAPED_FILE⟩⟩
        s2).calls =
      s2.calls ++ [Call.munmap 0x7f0000100000 a.page_size,
        Call.free_name (s.strings.length + 1)] := by
  constructor
  · rw [mmap_fd_registered a env_first_succeeds fd name 0 prot global type s 0 (by decide)
      (fun i hi => absurd hi (Nat.not_lt_zero i))
      (by show (0x7f0000100000 : Nat) ≠ MAP_FAILED; decide)]
    rfl
  · intro s2
    simp [map_destructor, State.log]

end Trinity
